import Mathlib

/-!
Shallow embedding of the JetStream-style client core found in `src/js.c`
(async publish pipeline, consumer-config differ, ack-reply metadata parser,
pull fetch, ack API, pull-subscribe argument validation), together with
theorems settling the frozen claims about it.

Machine integers (`int64_t`, `uint64_t`) are modelled as `Int`/`Nat`: the
quantities involved (pending counts, sequence numbers) never approach the
word size in the code paths under study.  Concurrency is modelled by making
the effects of other threads explicit parameters (lists of pending-count
deltas observed across condition waits).  Fallible allocation is assumed to
succeed.
-/

namespace NatsJs

/-- Subset of `natsStatus` codes used by the functions under study. -/
inductive NatsStatus where
  | ok
  | invalidArg
  | invalidTimeout
  | invalidSubscription
  | noMemory
  | timeout
  | notFound
  | err
  | illegalState
  | noResponders
deriving DecidableEq, Repr

/-! ## Consumer config differ (`_checkConfig`, js.c:1646-1700) -/

/-- `_stringPropertyDiffer` (js.c:1631-1641): a user string differs from the
server string iff the user string is non-empty and either the server string
is empty or the two strings are unequal.  C `NULL` and `""` are both
"empty" (`nats_IsStringEmpty`); we model both as `""`. -/
def _stringPropertyDiffer (user server : String) : Bool :=
  if user = "" then false
  else if server = "" then true
  else user ≠ server

/-- `jsConsumerConfig` (header record): the fields `_checkConfig` compares.
Enum-valued fields (`DeliverPolicy`, `AckPolicy`, `ReplayPolicy`) are `Int`
with `-1` as the "unset" sentinel (see `jsSubOptions_Init`, js.c:891-902);
`OptStartSeq` and `RateLimit` are `uint64_t` hence `Nat`; the remaining
numeric fields are `int64_t` hence `Int`. -/
structure jsConsumerConfig where
  Durable         : String
  Description     : String
  DeliverPolicy   : Int
  OptStartSeq     : Nat
  OptStartTime    : Int
  AckPolicy       : Int
  AckWait         : Int
  MaxDeliver      : Int
  ReplayPolicy    : Int
  RateLimit       : Nat
  SampleFrequency : String
  MaxWaiting      : Int
  MaxAckPending   : Int
  FlowControl     : Bool
  Heartbeat       : Int
deriving DecidableEq, Repr

/-- `_checkConfig` (js.c:1646-1700): compare the server-reported config `s`
against the user-requested config `u` field by field, in source order;
the first mismatch yields `NATS_ERR` (the C code attaches a descriptive
message; only the status matters here). -/
def _checkConfig (s u : jsConsumerConfig) : NatsStatus :=
  if _stringPropertyDiffer u.Durable s.Durable then .err
  else if _stringPropertyDiffer u.Description s.Description then .err
  else if 0 ≤ u.DeliverPolicy ∧ u.DeliverPolicy ≠ s.DeliverPolicy then .err
  else if 0 < u.OptStartSeq ∧ u.OptStartSeq ≠ s.OptStartSeq then .err
  else if 0 < u.OptStartTime ∧ u.OptStartTime ≠ s.OptStartTime then .err
  else if 0 ≤ u.AckPolicy ∧ u.AckPolicy ≠ s.AckPolicy then .err
  else if 0 < u.AckWait ∧ u.AckWait ≠ s.AckWait then .err
  else if 0 < u.MaxDeliver ∧ u.MaxDeliver ≠ s.MaxDeliver then .err
  else if 0 ≤ u.ReplayPolicy ∧ u.ReplayPolicy ≠ s.ReplayPolicy then .err
  else if 0 < u.RateLimit ∧ u.RateLimit ≠ s.RateLimit then .err
  else if _stringPropertyDiffer u.SampleFrequency s.SampleFrequency then .err
  else if 0 < u.MaxWaiting ∧ u.MaxWaiting ≠ s.MaxWaiting then .err
  else if 0 < u.MaxAckPending ∧ u.MaxAckPending ≠ s.MaxAckPending then .err
  else if u.FlowControl ∧ ¬ s.FlowControl then .err
  else if 0 < u.Heartbeat ∧ u.Heartbeat ≠ s.Heartbeat then .err
  else .ok

/-- A config has no "unset" fields: strings non-empty, enums set (`≥ 0`),
numeric fields positive (the differ treats `0` as "don't check"). -/
def jsConsumerConfig.noUnset (c : jsConsumerConfig) : Prop :=
  c.Durable ≠ "" ∧ c.Description ≠ "" ∧ c.SampleFrequency ≠ ""
    ∧ 0 ≤ c.DeliverPolicy ∧ 0 ≤ c.AckPolicy ∧ 0 ≤ c.ReplayPolicy
    ∧ 0 < c.OptStartSeq ∧ 0 < c.OptStartTime ∧ 0 < c.AckWait
    ∧ 0 < c.MaxDeliver ∧ 0 < c.RateLimit ∧ 0 < c.MaxWaiting
    ∧ 0 < c.MaxAckPending ∧ 0 < c.Heartbeat

instance (c : jsConsumerConfig) : Decidable c.noUnset := by
  unfold jsConsumerConfig.noUnset; infer_instance

/-! ## Async publish pipeline (js.c:512-889)

The inflight map `js->pm` is a string hash from 8-char reply tokens to
message pointers; we model it as an association list and messages as `Nat`
identities.  The effects of other threads on the shared pending count
`js->pmcount` while this thread waits on the condition variable are passed
in as an explicit list of deltas, one per condition wait that returned
without timing out; exhausting the list means the next wait returns
`NATS_TIMEOUT` (the absolute deadline passed). -/

/-- Modelled from the spec: `natsStrHash_Set` (hash.c, outside src/) has
insert-and-return-old semantics — keys are unique, inserting an existing
key overwrites the entry and yields the previous value.  Returns the new
map and the evicted value, if any. -/
def strHashSet (m : List (String × Nat)) (k : String) (v : Nat) :
    List (String × Nat) × Option Nat :=
  match m.find? (fun p => p.1 = k) with
  | some old => (m.map (fun p => if p.1 = k then (k, v) else p), some old.2)
  | none     => (m ++ [(k, v)], none)

/-- The part of `jsCtx` state touched by the async publish pipeline:
`pmcount` (pending count), `stalled` (stalled-caller count), `pm` (inflight
map), and — for observability of ownership — the list of message identities
destroyed by the pipeline (`natsMsg_Destroy` calls on inflight messages). -/
structure PubState where
  pmcount   : Int
  stalled   : Int
  pm        : List (String × Nat)
  destroyed : List Nat
deriving DecidableEq, Repr

/-- The stall wait loop of `_registerPubMsg` (js.c:716-719):
`while ((s != NATS_TIMEOUT) && (js->pmcount > maxp)) s = wait(...)`.
Each list element is one condition wait returning without timeout, carrying
the net change other threads made to `pmcount`; an empty list means the
next wait hits the absolute deadline and returns `NATS_TIMEOUT`.  Result:
(timed out?, pending count at exit). -/
def stallWaitLoop (maxp : Int) : List Int → Int → Bool × Int
  | [], pm => if pm ≤ maxp then (false, pm) else (true, pm)
  | d :: rest, pm => if pm ≤ maxp then (false, pm) else stallWaitLoop maxp rest (pm + d)

/-- `_registerPubMsg` (js.c:692-738), with `_newAsyncReply` assumed to
succeed and yield `token`.  Under the lock: increment `pmcount`; if
`MaxPending > 0` and `pmcount` now exceeds it, stall-wait on the condition
until `pmcount ≤ maxp` or the `StallWait` deadline; on timeout set the
"stalled" error, decrement `pmcount` and fail; otherwise insert `msg` into
the inflight map under `token` (`natsStrHash_Set(js->pm, id, true, msg, NULL)`
— the old-value out parameter is `NULL`, so any evicted message is
discarded, not destroyed).  Returns (status, error text, new state). -/
def _registerPubMsg (maxp : Int) (token : String) (msg : Nat) (waits : List Int)
    (st : PubState) : NatsStatus × Option String × PubState :=
  let pm1 := st.pmcount + 1
  if 0 < maxp ∧ maxp < pm1 then
    let r := stallWaitLoop maxp waits pm1
    if r.1 then
      (.timeout, some "stalled with too many outstanding async published messages",
       { st with pmcount := r.2 - 1 })
    else
      let ins := strHashSet st.pm token msg
      (.ok, none, { st with pmcount := r.2, pm := ins.1 })
  else
    let ins := strHashSet st.pm token msg
    (.ok, none, { st with pmcount := pm1, pm := ins.1 })

/-- The wait loop of `js_PublishAsyncComplete` (js.c:831-837):
`while ((s != NATS_TIMEOUT) && (js->pmcount > 0)) wait`.  When `timed`
(a positive timeout was supplied), exhausting `waits` means the next wait
returns `NATS_TIMEOUT`, with `finalDelta` the net change other threads made
to `pmcount` during that last, timing-out wait; when not `timed`, the plain
`natsCondition_Wait` never times out, so exhausting the list means the call
blocks forever (`none`).  Result: (timed out?, pending count at exit). -/
def pubCompleteLoop (timed : Bool) (finalDelta : Int) :
    List Int → Int → Option (Bool × Int)
  | [], pm =>
      if pm ≤ 0 then some (false, pm)
      else if timed then some (true, pm + finalDelta) else none
  | d :: rest, pm =>
      if pm ≤ 0 then some (false, pm)
      else pubCompleteLoop timed finalDelta rest (pm + d)

/-- `js_PublishAsyncComplete` (js.c:803-847), state restricted to what it
reads: `initialized` models `js->pm != NULL`, `pmcount` the pending count.
If the async state was never initialised or `pmcount == 0`, return `NATS_OK`
at once.  Otherwise run the wait loop; if it ends by timeout but the pending
count is `0` at that moment, the timeout is converted to `NATS_OK`
(js.c:842-843).  `none` = the call never returns (untimed wait, pending
never observed `≤ 0`). -/
def js_PublishAsyncComplete (initialized timed : Bool) (waits : List Int)
    (finalDelta : Int) (pmcount : Int) : Option (NatsStatus × Int) :=
  if ¬ initialized ∨ pmcount = 0 then some (.ok, pmcount)
  else
    match pubCompleteLoop timed finalDelta waits pmcount with
    | none => none
    | some (timedOut, pm) =>
        if timedOut ∧ pm ≠ 0 then some (.timeout, pm) else some (.ok, pm)

/-- The drain loop of `js_PublishAsyncGetPendingList` (js.c:873-880): one
iteration per inflight-map entry, each decrementing `pmcount` only while it
is positive (`if (js->pmcount > 0) js->pmcount--`). -/
def drainDec : Nat → Int → Int
  | 0, pm => pm
  | n + 1, pm => drainDec n (if 0 < pm then pm - 1 else pm)

/-- `js_PublishAsyncGetPendingList` (js.c:849-889), with allocation assumed
to succeed.  If the inflight map is empty return `NATS_NOT_FOUND` and no
list; otherwise move every map entry into the output list and decrement
`pmcount` once per entry (never below zero). -/
def js_PublishAsyncGetPendingList (st : PubState) :
    NatsStatus × Option (List Nat) × PubState :=
  if st.pm.length = 0 then (.notFound, none, st)
  else
    (.ok, some (st.pm.map (fun p => p.2)),
     { st with pm := [], pmcount := drainDec st.pm.length st.pmcount })

/-! ## Ack-reply metadata parser (`_getMetaData`, js.c:1092-1255)

Subjects are modelled as `List Char` (the `$JS.ACK.` head is already
stripped, as at the call sites).  Tokens are the maximal dot-free runs. -/

/-- One pass of the `strchr`-driven scan: split a subject into its
dot-separated tokens (the accumulator holds the current token reversed). -/
def splitTok : List Char → List Char → List (List Char)
  | [], cur => [cur.reverse]
  | c :: rest, cur =>
      if c = '.' then cur.reverse :: splitTok rest [] else splitTok rest (c :: cur)

/-- The token-collection loop of `_getMetaData` (js.c:1134-1147): collect
dot-terminated tokens while fewer than 9 have been collected; once the dots
are exhausted the remainder is appended as a final token, but if 9 tokens
were collected while dots remain, the tail is dropped.  Net effect: the
full dot-split when it has at most 9 tokens, else its first 9 tokens. -/
def collectTokens (reply : List Char) : List (List Char) :=
  if 10 ≤ (splitTok reply []).length then (splitTok reply []).take 9
  else splitTok reply []

/-- Modelled from the spec: `nats_ParseInt64` (util.c, outside src/) parses
a token as a non-negative integer and returns `-1` on a parse error. -/
def nats_ParseInt64 (tok : List Char) : Int :=
  if tok ≠ [] ∧ tok.all (fun c => c.isDigit) then
    (tok.foldl (fun acc c => acc * 10 + (c.toNat - 48)) (0 : Nat) : Nat)
  else -1

/-- The v1→v2 promotion (js.c:1154-1164): a 7-token subject gets two `NULL`
tokens prepended (`tokens[0].start = NULL`), which we model as `none`; real
tokens (possibly empty strings) are `some`. -/
def promoteTokens (ts : List (List Char)) : List (Option (List Char)) :=
  if ts.length = 7 then none :: none :: ts.map some else ts.map some

/-- The domain normalization of `_getMetaData`'s case 0 (js.c:1183-1195):
a `NULL` token (v1 promotion) or the token `"_"` means "no domain". -/
def metaDomain (t : Option (List Char)) : Option (List Char) :=
  match t with
  | none => none
  | some d => if d = ['_'] then none else some d

/-- `jsMsgMetaData`: the fields `_getMetaData` can fill. -/
structure MetaData where
  domain       : Option (List Char)
  stream       : List Char
  consumer     : List Char
  numDelivered : Nat
  sseq         : Nat
  dseq         : Nat
  tm           : Int
  numPending   : Nat
deriving DecidableEq, Repr

/-- `_getMetaData` (js.c:1092-1255) as called by `natsMsg_GetMetaData`
(all output pointers set, `asked = 8`, so every token is processed).
Collect at most 9 tokens; fail unless the count is 7 or 9; promote a
7-token v1 subject; fail if any numeric token (index > 3) does not parse;
otherwise fill every field. -/
def _getMetaData (reply : List Char) : Option MetaData :=
  if (collectTokens reply).length < 7
      ∨ (7 < (collectTokens reply).length ∧ (collectTokens reply).length < 9) then
    none
  else
    if nats_ParseInt64 (((promoteTokens (collectTokens reply)).getD 4 none).getD []) = -1
        ∨ nats_ParseInt64 (((promoteTokens (collectTokens reply)).getD 5 none).getD []) = -1
        ∨ nats_ParseInt64 (((promoteTokens (collectTokens reply)).getD 6 none).getD []) = -1
        ∨ nats_ParseInt64 (((promoteTokens (collectTokens reply)).getD 7 none).getD []) = -1
        ∨ nats_ParseInt64 (((promoteTokens (collectTokens reply)).getD 8 none).getD []) = -1 then
      none
    else
      some
        { domain := metaDomain ((promoteTokens (collectTokens reply)).getD 0 none)
          stream := ((promoteTokens (collectTokens reply)).getD 2 none).getD []
          consumer := ((promoteTokens (collectTokens reply)).getD 3 none).getD []
          numDelivered :=
            (nats_ParseInt64 (((promoteTokens (collectTokens reply)).getD 4 none).getD [])).toNat
          sseq :=
            (nats_ParseInt64 (((promoteTokens (collectTokens reply)).getD 5 none).getD [])).toNat
          dseq :=
            (nats_ParseInt64 (((promoteTokens (collectTokens reply)).getD 6 none).getD [])).toNat
          tm := nats_ParseInt64 (((promoteTokens (collectTokens reply)).getD 7 none).getD [])
          numPending :=
            (nats_ParseInt64 (((promoteTokens (collectTokens reply)).getD 8 none).getD [])).toNat }

/-! ## Pull fetch (`natsSubscription_Fetch`, js.c:1461-1592)

Messages are classified the way `_checkMsg` (js.c:1377-1422) classifies
them: a user message, or a status message with code 404, 408, or other.
The transport interactions are event lists: `localQ` is the internal
subscription's queued messages, `arrivals` the messages the server delivers
after a pull request (a `tmo` event is `natsSub_nextMsg` returning
`NATS_TIMEOUT` when the budget runs out; an exhausted list likewise).
Real-time bookkeeping (`expires` shaving) is abstracted away: pull requests
always reach the server. -/

inductive FMsg where
  | user (id : Nat)
  | status404
  | status408
  | statusOther
deriving DecidableEq, Repr

/-- `_checkMsg` (js.c:1377-1422): returns (status, is-user-message).
User messages give `(OK, true)`.  Status messages give `usrMsg = false`
and, when `checkSts`: 404 → `NATS_NOT_FOUND`, 408 → ignored (`NATS_OK`),
other → `NATS_ERR` (description-based error); when not `checkSts`,
always `NATS_OK`. -/
def _checkMsg (checkSts : Bool) (m : FMsg) : NatsStatus × Bool :=
  match m with
  | .user _ => (.ok, true)
  | .status404 => if checkSts then (.notFound, false) else (.ok, false)
  | .status408 => (.ok, false)
  | .statusOther => if checkSts then (.err, false) else (.ok, false)

/-- A pull request as published by `_sendPullRequest` (js.c:1424-1459),
restricted to the fields the claims concern: the `batch` count and the
presence of `"no_wait":true` (the `expires` field is time-derived and
abstracted away). -/
structure PullReq where
  batch  : Nat
  noWait : Bool
deriving DecidableEq, Repr

inductive FetchEvent where
  | msg (m : FMsg)
  | tmo
deriving DecidableEq, Repr

/-- The local-drain loop of `natsSubscription_Fetch` (js.c:1513-1531):
non-blocking `natsSub_nextMsg` (exhausted queue → `NATS_TIMEOUT`),
`_checkMsg` with `checkSts = false`, keep user messages up to `batch`. -/
def drainLocal (batch : Nat) : List FMsg → Nat → List FMsg → NatsStatus × Nat × List FMsg
  | [], count, msgs => (.timeout, count, msgs)
  | m :: rest, count, msgs =>
      if batch ≤ count then (.ok, count, msgs)
      else
        if (_checkMsg false m).1 = .ok ∧ (_checkMsg false m).2 then
          drainLocal batch rest (count + 1) (msgs ++ [m])
        else if (_checkMsg false m).1 = .ok then drainLocal batch rest count msgs
        else ((_checkMsg false m).1, count, msgs)

/-- The drain phase guarded by `pmc = (sub->msgList.msgs > 0)`
(js.c:1506,1513): when the internal queue is empty the loop body never runs
and the status stays `NATS_OK`. -/
def localDrainResult (batch : Nat) (localQ : List FMsg) : NatsStatus × Nat × List FMsg :=
  if localQ.isEmpty then (.ok, 0, []) else drainLocal batch localQ 0 []

/-- The server-message loop of `natsSubscription_Fetch` (js.c:1542-1568):
wait for messages, `_checkMsg` with `checkSts = true`; collect user
messages; on a 404 while `doNoWait` holds and nothing was collected, send a
second request without `no_wait` and keep waiting; 408s are skipped; any
other error, or a `nextMsg` timeout, ends the loop.  The accumulated
`reqs` records every pull request published. -/
def fetchLoop (batch : Nat) :
    List FetchEvent → Bool → Nat → List FMsg → List PullReq →
      NatsStatus × Nat × List FMsg × List PullReq
  | [], _, count, msgs, reqs =>
      if batch ≤ count then (.ok, count, msgs, reqs) else (.timeout, count, msgs, reqs)
  | .tmo :: _, _, count, msgs, reqs =>
      if batch ≤ count then (.ok, count, msgs, reqs) else (.timeout, count, msgs, reqs)
  | .msg m :: rest, doNoWait, count, msgs, reqs =>
      if batch ≤ count then (.ok, count, msgs, reqs)
      else
        if (_checkMsg true m).1 = .ok ∧ (_checkMsg true m).2 then
          fetchLoop batch rest doNoWait (count + 1) (msgs ++ [m]) reqs
        else if doNoWait ∧ (_checkMsg true m).1 = .notFound ∧ count = 0 then
          fetchLoop batch rest false count msgs (reqs ++ [⟨batch - count, false⟩])
        else if (_checkMsg true m).1 = .ok then
          fetchLoop batch rest doNoWait count msgs reqs
        else ((_checkMsg true m).1, count, msgs, reqs)

/-- `natsSubscription_Fetch` (js.c:1461-1592), time abstracted as above:
validate `batch`; drain the local queue; if messages are still missing,
publish a pull request with `no_wait` exactly when more than one message
remains, then run the server-message loop; finally, if any user messages
were collected return them with `NATS_OK` (clearing the error), else
surface the status.  Returns (status, returned messages, requests sent). -/
def natsSubscription_Fetch (batch : Nat) (localQ : List FMsg)
    (arrivals : List FetchEvent) : NatsStatus × List FMsg × List PullReq :=
  if batch = 0 then (.invalidArg, [], [])
  else
    let d := localDrainResult batch localQ
    if (d.1 = .ok ∨ d.1 = .timeout) ∧ d.2.1 ≠ batch then
      let dnw := decide (1 < batch - d.2.1)
      let r := fetchLoop batch arrivals dnw d.2.1 d.2.2 [⟨batch - d.2.1, dnw⟩]
      if 0 < r.2.1 then (.ok, r.2.2.1, r.2.2.2) else (r.1, [], r.2.2.2)
    else
      if 0 < d.2.1 then (.ok, d.2.2, []) else (d.1, [], [])

/-! ## Ack API (`_ackMsg`, js.c:2148-2230) -/

/-- The per-message state `_ackMsg` reads and writes: the acked flag
(`natsMsg_isAcked` / `natsMsg_setAcked`), whether the message is bound to a
subscription (`msg->sub != NULL`), and its reply subject. -/
structure AckMsg where
  acked : Bool
  bound : Bool
  reply : String
deriving DecidableEq, Repr

/-- Ack payloads (header constants `jsAckAck` etc., outside src/; modelled
from the spec's payload table). -/
def jsAckAck : String := "+ACK"

def jsAckNak : String := "-NAK"

def jsAckInProgress : String := "+WPI"

def jsAckTerm : String := "+TERM"

/-- `_ackMsg` (js.c:2148-2200): `NATS_INVALID_ARG` on a null message; a
no-op returning `NATS_OK` on an already-acked message; `NATS_ILLEGAL_STATE`
when unbound or when the reply subject is empty; otherwise publish (or
request, when `sync`) the payload — `pubOk` is the transport's outcome —
and, on success, mark the message acked unless `inProgress`.  Returns
(status, message state, payloads handed to the transport). -/
def _ackMsg (m : Option AckMsg) (ackType : String) (inProgress sync : Bool)
    (pubOk : Bool) : NatsStatus × Option AckMsg × List String :=
  match m with
  | none => (.invalidArg, none, [])
  | some msg =>
      if msg.acked then (.ok, some msg, [])
      else if ¬ msg.bound then (.illegalState, some msg, [])
      else if msg.reply = "" then (.illegalState, some msg, [])
      else
        let s := if pubOk then NatsStatus.ok else NatsStatus.err
        let msgOut := if pubOk ∧ ¬ inProgress then { msg with acked := true } else msg
        (s, some msgOut, [ackType])

def natsMsg_Ack (m : Option AckMsg) (pubOk : Bool) : NatsStatus × Option AckMsg × List String :=
  _ackMsg m jsAckAck false false pubOk

def natsMsg_AckSync (m : Option AckMsg) (pubOk : Bool) : NatsStatus × Option AckMsg × List String :=
  _ackMsg m jsAckAck false true pubOk

def natsMsg_Nak (m : Option AckMsg) (pubOk : Bool) : NatsStatus × Option AckMsg × List String :=
  _ackMsg m jsAckNak false false pubOk

def natsMsg_InProgress (m : Option AckMsg) (pubOk : Bool) :
    NatsStatus × Option AckMsg × List String :=
  _ackMsg m jsAckInProgress true false pubOk

def natsMsg_Term (m : Option AckMsg) (pubOk : Bool) : NatsStatus × Option AckMsg × List String :=
  _ackMsg m jsAckTerm false false pubOk

/-! ## Pull subscribe argument validation (`js_PullSubscribe`, js.c:2119-2146) -/

/-- `jsAckPolicy` (header enum, outside src/): the three policies plus the
`-1` "unset" sentinel set by `jsSubOptions_Init`. -/
inductive jsAckPolicy where
  | js_AckExplicit
  | js_AckNone
  | js_AckAll
  | js_AckUnset
deriving DecidableEq, Repr

/-- `js_PullSubscribe` (js.c:2119-2146): reject a `NULL` or empty durable
name (`nats_IsStringEmpty`) and, when options are supplied, the ack
policies `none` and `all`, with `NATS_INVALID_ARG` — all before calling
`_subscribe`.  `opts` carries the `Config.AckPolicy` of the supplied
options; `subscribeResult` is the outcome `_subscribe` would produce.
Returns (status, whether `_subscribe` was invoked). -/
def js_PullSubscribe (durable : Option String) (opts : Option jsAckPolicy)
    (subscribeResult : NatsStatus) : NatsStatus × Bool :=
  match durable with
  | none => (.invalidArg, false)
  | some dur =>
      if dur = "" then (.invalidArg, false)
      else
        match opts with
        | some p =>
            if p = .js_AckNone ∨ p = .js_AckAll then (.invalidArg, false)
            else (subscribeResult, true)
        | none => (subscribeResult, true)

theorem stringPropertyDiffer_self (x : String) : _stringPropertyDiffer x x = false := by
  unfold _stringPropertyDiffer
  by_cases h : x = "" <;> simp [h]

/-- C8: For every consumer configuration `C` with no "unset" fields,
`_checkConfig C C` reports no mismatch and returns `NATS_OK`. -/
theorem checkConfig_self (C : jsConsumerConfig) (h : C.noUnset) :
    _checkConfig C C = NatsStatus.ok := by
  unfold _checkConfig
  simp [stringPropertyDiffer_self]

theorem checkConfig_self_witness :
    (jsConsumerConfig.noUnset
        ⟨"d", "desc", 0, 1, 1, 1, 1, 1, 2, 1, "sf", 1, 1, true, 1⟩)
      ∧ _checkConfig
          ⟨"d", "desc", 0, 1, 1, 1, 1, 1, 2, 1, "sf", 1, 1, true, 1⟩
          ⟨"d", "desc", 0, 1, 1, 1, 1, 1, 2, 1, "sf", 1, 1, true, 1⟩
          = NatsStatus.ok :=
  ⟨by decide,
   checkConfig_self ⟨"d", "desc", 0, 1, 1, 1, 1, 1, 2, 1, "sf", 1, 1, true, 1⟩
     (by decide)⟩

/-! ### Async publish theorems -/

theorem stallWaitLoop_timeout (maxp : Int) :
    ∀ (evs : List Int) (pm : Int),
      (∀ k, k ≤ evs.length → maxp < pm + (evs.take k).sum) →
      stallWaitLoop maxp evs pm = (true, pm + evs.sum) := by
  intro evs
  induction evs with
  | nil =>
      intro pm h
      have h0 := h 0 (Nat.le_refl 0)
      simp at h0
      unfold stallWaitLoop
      rw [if_neg (by omega)]
      simp
  | cons d rest ih =>
      intro pm h
      have h0 := h 0 (Nat.zero_le _)
      simp at h0
      have hrec := ih (pm + d) (fun k hk => by
        have := h (k + 1) (by simpa using Nat.succ_le_succ hk)
        simpa [List.take_succ_cons, add_assoc] using this)
      unfold stallWaitLoop
      rw [if_neg (by omega), hrec]
      simp
      omega

/-- C1: if, after incrementing the pending count, the count exceeds
`MaxPending` and never drops to at most `MaxPending` at any re-check of the
stall wait before the `StallWait` deadline, then `js_PublishMsgAsync`'s
registration step fails with `NATS_TIMEOUT` and the "stalled" error text,
decrements the pending count back (leaving it net unchanged: only the
deltas from other threads remain), and does not insert the message into the
inflight map. -/
theorem registerPubMsg_stall_timeout (maxp : Int) (token : String) (msg : Nat)
    (waits : List Int) (st : PubState)
    (hmax : 0 < maxp)
    (hstall : ∀ k, k ≤ waits.length → maxp < st.pmcount + 1 + (waits.take k).sum) :
    _registerPubMsg maxp token msg waits st =
      (.timeout, some "stalled with too many outstanding async published messages",
       { st with pmcount := st.pmcount + waits.sum }) := by
  have h0 := hstall 0 (Nat.zero_le _)
  simp at h0
  have hloop := stallWaitLoop_timeout maxp waits (st.pmcount + 1) hstall
  unfold _registerPubMsg
  rw [if_pos ⟨hmax, h0⟩, hloop]
  simp
  omega

theorem registerPubMsg_stall_timeout_witness :
    _registerPubMsg 1 "t" 5 [] ⟨1, 0, [], []⟩ =
      (.timeout, some "stalled with too many outstanding async published messages",
       ⟨1, 0, [], []⟩) := by
  have h := registerPubMsg_stall_timeout 1 "t" 5 [] ⟨1, 0, [], []⟩ (by decide)
    (by
      intro k hk
      have : k = 0 := Nat.le_zero.mp hk
      subst this
      norm_num)
  simpa using h

/-- C4 (counterexample): at a token collision, `_registerPubMsg` does
overwrite the older inflight entry and surfaces no error, but the evicted
prior message (identity `7`) is NOT destroyed — the code passes `NULL` as
`natsStrHash_Set`'s old-value out parameter and never frees the evicted
message, so the claim that it is "destroyed rather than silently leaked"
fails. -/
theorem registerPubMsg_collision_counterexample :
    (_registerPubMsg 0 "t" 8 [] ⟨1, 0, [("t", 7)], []⟩
       = (.ok, none, ⟨2, 0, [("t", 8)], []⟩))
    ∧ 7 ∉ (_registerPubMsg 0 "t" 8 [] ⟨1, 0, [("t", 7)], []⟩).2.2.destroyed := by
  constructor
  · rfl
  · intro h
    simp [_registerPubMsg, strHashSet] at h

/-- C4 (amended): when a newly generated reply token collides with a token
already present in the inflight map, `js_PublishMsgAsync`'s registration
step surfaces no error and the insert overwrites the older inflight entry
(insert-and-return-old semantics with the old value discarded); the evicted
prior message is NOT destroyed — the pipeline's destroyed-set is left
unchanged, i.e. the prior message is silently dropped from the map
(leaked). -/
theorem registerPubMsg_collision_overwrites (maxp : Int) (token : String)
    (oldMsg msg : Nat) (waits : List Int) (st : PubState)
    (hns : ¬ (0 < maxp ∧ maxp < st.pmcount + 1))
    (hfind : st.pm.find? (fun p => p.1 = token) = some (token, oldMsg)) :
    _registerPubMsg maxp token msg waits st =
      (.ok, none,
       { st with pmcount := st.pmcount + 1,
                 pm := st.pm.map (fun p => if p.1 = token then (token, msg) else p) }) := by
  unfold _registerPubMsg strHashSet
  rw [if_neg hns, hfind]

theorem registerPubMsg_collision_overwrites_witness :
    _registerPubMsg 0 "t" 8 [] ⟨1, 0, [("t", 7)], []⟩ =
      (.ok, none, ⟨2, 0, [("t", 8)], []⟩) := by
  have h := registerPubMsg_collision_overwrites 0 "t" 7 8 [] ⟨1, 0, [("t", 7)], []⟩
    (by decide) (by rfl)
  simpa using h

theorem pubCompleteLoop_timed_isSome (finalDelta : Int) :
    ∀ (waits : List Int) (pm : Int),
      pubCompleteLoop true finalDelta waits pm ≠ none := by
  intro waits
  induction waits with
  | nil =>
      intro pm
      unfold pubCompleteLoop
      split <;> simp
  | cons d rest ih =>
      intro pm
      unfold pubCompleteLoop
      split
      · simp
      · exact ih (pm + d)

/-- C2: `js_PublishAsyncComplete` returns `NATS_OK` immediately when the
async publish state was never initialised or the pending count is already
zero; whenever its wait ends and the pending count is zero at that moment
(in particular when the wait timed out in that state) it returns `NATS_OK`
rather than `NATS_TIMEOUT`; and with a positive timeout the call always
returns (blocks only until pending is zero or the timeout elapses). -/
theorem publishAsyncComplete_spec (initialized timed : Bool) (waits : List Int)
    (finalDelta pmcount : Int) :
    ((¬ initialized ∨ pmcount = 0) →
       js_PublishAsyncComplete initialized timed waits finalDelta pmcount
         = some (.ok, pmcount))
  ∧ (∀ st pm,
       js_PublishAsyncComplete initialized timed waits finalDelta pmcount
           = some (st, pm) →
       pm = 0 → st = NatsStatus.ok)
  ∧ (timed = true →
       js_PublishAsyncComplete initialized timed waits finalDelta pmcount ≠ none) := by
  refine ⟨?_, ?_, ?_⟩
  · intro h
    unfold js_PublishAsyncComplete
    rw [if_pos (by simpa using h)]
  · intro st pm h hpm
    unfold js_PublishAsyncComplete at h
    split at h
    · simp at h
      exact h.1.symm
    · cases hm : pubCompleteLoop timed finalDelta waits pmcount with
      | none => rw [hm] at h; simp at h
      | some tp =>
          obtain ⟨tOut, p⟩ := tp
          rw [hm] at h
          simp at h
          split at h
          · rename_i hcond
            simp at h
            exact absurd (h.2 ▸ hpm) hcond.2
          · simp at h
            exact h.1.symm
  · intro ht
    subst ht
    unfold js_PublishAsyncComplete
    split
    · simp
    · cases hm : pubCompleteLoop true finalDelta waits pmcount with
      | none => exact absurd hm (pubCompleteLoop_timed_isSome finalDelta waits pmcount)
      | some tp =>
          obtain ⟨tOut, p⟩ := tp
          split
          · rename_i heq
            exact Option.noConfusion heq
          · split <;> simp

theorem publishAsyncComplete_spec_witness :
    (js_PublishAsyncComplete false true [] 0 3 = some (.ok, 3))
    ∧ NatsStatus.ok = NatsStatus.ok := by
  refine ⟨?_, rfl⟩
  have h := (publishAsyncComplete_spec false true [] 0 3).1 (by simp)
  exact h

/-- C3 (counterexample): with pending count `2` and a single inflight map
entry — a state reachable while a stalled publisher has incremented the
pending count but not yet inserted its message — draining leaves the
pending count at `1`, not `0`: the code decrements once per drained entry,
it does not zero the count. -/
theorem pendingList_counterexample :
    (js_PublishAsyncGetPendingList ⟨2, 0, [("a", 5)], []⟩
       = (.ok, some [5], ⟨1, 0, [], []⟩))
    ∧ (js_PublishAsyncGetPendingList ⟨2, 0, [("a", 5)], []⟩).2.2.pmcount ≠ 0 := by
  constructor
  · rfl
  · intro h
    simp [js_PublishAsyncGetPendingList, drainDec] at h

theorem drainDec_eq_zero :
    ∀ (n : Nat) (pm : Int), 0 ≤ pm → pm ≤ (n : Int) → drainDec n pm = 0 := by
  intro n
  induction n with
  | zero =>
      intro pm h0 h1
      unfold drainDec
      omega
  | succ m ih =>
      intro pm h0 h1
      unfold drainDec
      split
      · exact ih (pm - 1) (by omega) (by omega)
      · have : pm = 0 := by omega
        subst this
        exact ih 0 (by omega) (by positivity)

/-- C3 (amended): `js_PublishAsyncGetPendingList` removes every entry from
the inflight map and returns all of them, the returned count equal to the
former map cardinality, and decrements the pending count once per drained
entry (never below zero) — so the pending count ends at zero exactly in the
states where it did not exceed the map cardinality; when the map is empty
it returns `NATS_NOT_FOUND` and produces no list. -/
theorem pendingList_drains_map (st : PubState) :
    (st.pm.length = 0 → js_PublishAsyncGetPendingList st = (.notFound, none, st))
  ∧ (st.pm.length ≠ 0 →
       js_PublishAsyncGetPendingList st =
         (.ok, some (st.pm.map (fun p => p.2)),
          { st with pm := [], pmcount := drainDec st.pm.length st.pmcount })
       ∧ (st.pm.map (fun p => p.2)).length = st.pm.length
       ∧ (0 ≤ st.pmcount → st.pmcount ≤ (st.pm.length : Int) →
            drainDec st.pm.length st.pmcount = 0)) := by
  constructor
  · intro h
    unfold js_PublishAsyncGetPendingList
    rw [if_pos h]
  · intro h
    refine ⟨?_, by simp, fun h0 h1 => drainDec_eq_zero _ _ h0 h1⟩
    unfold js_PublishAsyncGetPendingList
    rw [if_neg h]

theorem pendingList_drains_map_witness :
    js_PublishAsyncGetPendingList ⟨1, 0, [("a", 5)], []⟩
      = (.ok, some [5], ⟨0, 0, [], []⟩) := by
  have h := ((pendingList_drains_map ⟨1, 0, [("a", 5)], []⟩).2 (by simp)).1
  simpa [drainDec] using h

/-! ### Metadata parser theorems -/

theorem collectTokens_le9 (reply : List Char) : (collectTokens reply).length ≤ 9 := by
  unfold collectTokens
  split
  · simp
  · omega

/-- C5: the ack-reply metadata parser collects at most 9 dot-separated
tokens; it fails when the collected count is below 7 or exactly 8, and
succeeds only when the count is 7 or 9; every successfully parsed 7-token
(v1) subject has domain = "no domain" (`none`), and so does any subject
whose leading (domain) token is exactly `"_"`. -/
theorem metaData_spec (reply : List Char) :
    ((collectTokens reply).length ≤ 9)
  ∧ ((collectTokens reply).length < 7 ∨ (collectTokens reply).length = 8 →
       _getMetaData reply = none)
  ∧ (∀ md, _getMetaData reply = some md →
       ((collectTokens reply).length = 7 ∨ (collectTokens reply).length = 9)
     ∧ ((collectTokens reply).length = 7 → md.domain = none)
     ∧ ((collectTokens reply).headD [] = ['_'] → md.domain = none)) := by
  refine ⟨collectTokens_le9 reply, ?_, ?_⟩
  · intro h
    unfold _getMetaData
    rw [if_pos ?_]
    rcases h with h | h
    · exact Or.inl h
    · exact Or.inr ⟨by omega, by omega⟩
  · intro md h
    by_cases hg : (collectTokens reply).length < 7
        ∨ (7 < (collectTokens reply).length ∧ (collectTokens reply).length < 9)
    · unfold _getMetaData at h
      rw [if_pos hg] at h
      exact Option.noConfusion h
    · have hle := collectTokens_le9 reply
      push_neg at hg
      have h9 : (collectTokens reply).length = 7 ∨ (collectTokens reply).length = 9 := by
        omega
      unfold _getMetaData at h
      rw [if_neg ?_] at h
      swap
      · push_neg
        exact hg
      split at h
      · exact Option.noConfusion h
      · have hmd := Option.some.inj h
        refine ⟨h9, ?_, ?_⟩
        · intro h7
          rw [← hmd]
          simp [promoteTokens, h7, metaDomain]
        · intro hhead
          rcases h9 with h7 | h9'
          · rw [← hmd]
            simp [promoteTokens, h7, metaDomain]
          · rw [← hmd]
            cases hts : collectTokens reply with
            | nil => rw [hts] at h9'; simp at h9'
            | cons a l =>
                rw [hts] at h9' hhead
                simp at hhead
                have hl : l.length = 8 := by simpa using h9'
                simp [promoteTokens, hl, hhead, metaDomain]

theorem metaData_spec_witness :
    _getMetaData "S.C.1.2.3.17.0".data
        = some ⟨none, ['S'], ['C'], 1, 2, 3, 17, 0⟩
    ∧ (MetaData.domain ⟨none, ['S'], ['C'], 1, 2, 3, 17, 0⟩ = none)
    ∧ ((collectTokens "S.C.1.2.3.17.0".data).length = 7
        ∨ (collectTokens "S.C.1.2.3.17.0".data).length = 9) := by
  have heval : _getMetaData "S.C.1.2.3.17.0".data
      = some ⟨none, ['S'], ['C'], 1, 2, 3, 17, 0⟩ := by decide
  have h := (metaData_spec "S.C.1.2.3.17.0".data).2.2 _ heval
  exact ⟨heval, h.2.1 (by decide), h.1⟩

/-! ### Pull fetch theorems -/

theorem fetchLoop_reqs (batch : Nat) :
    ∀ (evs : List FetchEvent) (dnw : Bool) (count : Nat) (msgs : List FMsg)
      (reqs : List PullReq),
      (fetchLoop batch evs dnw count msgs reqs).2.2.2 = reqs
      ∨ (dnw = true
          ∧ ∃ b, (fetchLoop batch evs dnw count msgs reqs).2.2.2
                   = reqs ++ [⟨b, false⟩]) := by
  intro evs
  induction evs with
  | nil =>
      intro dnw count msgs reqs
      left
      simp only [fetchLoop]
      split <;> rfl
  | cons e rest ih =>
      intro dnw count msgs reqs
      cases e with
      | tmo =>
          left
          simp only [fetchLoop]
          split <;> rfl
      | msg m =>
          simp only [fetchLoop]
          split
          · left; rfl
          · split
            · exact ih dnw (count + 1) (msgs ++ [m]) reqs
            · split
              · rename_i hcond
                rcases ih false count msgs (reqs ++ [⟨batch - count, false⟩]) with h | h
                · right
                  exact ⟨hcond.1, batch - count, h⟩
                · exact absurd h.1 (by simp)
              · split
                · exact ih dnw count msgs reqs
                · left; rfl

/-- C6: `natsSubscription_Fetch` sends its first pull request with
`no_wait = true` exactly when more than one message remains after the local
drain (`batch - collected > 1`); when a `no_wait` request yields a 404
while zero messages have been collected, it sends a second request with
`no_wait = false` and continues waiting; and it never sends more than two
requests, every request after the first having `no_wait = false`. -/
theorem fetch_noWait_spec (batch : Nat) (localQ : List FMsg)
    (arrivals rest : List FetchEvent) (msgs : List FMsg) (reqs : List PullReq)
    (hb : 0 < batch) :
    (((localDrainResult batch localQ).1 = .ok
        ∨ (localDrainResult batch localQ).1 = .timeout)
      ∧ (localDrainResult batch localQ).2.1 ≠ batch →
       (natsSubscription_Fetch batch localQ arrivals).2.2.head? =
         some ⟨batch - (localDrainResult batch localQ).2.1,
               decide (1 < batch - (localDrainResult batch localQ).2.1)⟩)
  ∧ (fetchLoop batch (.msg .status404 :: rest) true 0 msgs reqs
       = fetchLoop batch rest false 0 msgs (reqs ++ [⟨batch, false⟩]))
  ∧ (natsSubscription_Fetch batch localQ arrivals).2.2.length ≤ 2
  ∧ (∀ r ∈ (natsSubscription_Fetch batch localQ arrivals).2.2.tail,
       r.noWait = false) := by
  have hreqs := fetchLoop_reqs batch arrivals
    (decide (1 < batch - (localDrainResult batch localQ).2.1))
    (localDrainResult batch localQ).2.1
    (localDrainResult batch localQ).2.2
    [⟨batch - (localDrainResult batch localQ).2.1,
      decide (1 < batch - (localDrainResult batch localQ).2.1)⟩]
  refine ⟨?_, ?_, ?_⟩
  · intro hcond
    simp only [natsSubscription_Fetch]
    rw [if_neg (by omega), if_pos hcond]
    rcases hreqs with h | h
    · split <;> simp [h]
    · obtain ⟨-, b, h⟩ := h
      split <;> simp [h]
  · simp only [fetchLoop]
    rw [if_neg (by omega)]
    simp [_checkMsg]
  · constructor
    · simp only [natsSubscription_Fetch]
      split
      · simp
      · split
        · rcases hreqs with h | h
          · split <;> simp [h]
          · obtain ⟨-, b, h⟩ := h
            split <;> simp [h]
        · split <;> simp
    · intro r hr
      simp only [natsSubscription_Fetch] at hr
      split at hr
      · simp at hr
      · split at hr
        · rcases hreqs with h | h
          · split at hr <;> simp [h] at hr
          · obtain ⟨-, b, h⟩ := h
            split at hr <;>
              (simp [h] at hr; rw [hr])
        · split at hr <;> simp at hr

theorem fetch_noWait_spec_witness :
    (natsSubscription_Fetch 3 [] []).2.2.head? = some ⟨3, true⟩ := by
  have h := (fetch_noWait_spec 3 [] [] [] [] [] (by decide)).1 (by decide)
  simpa using h

/-- C7: if `natsSubscription_Fetch` has collected at least one user
message, it returns them with `NATS_OK` (clearing any pending error),
regardless of any error or timeout encountered during the fetch; only when
zero user messages were collected does it surface the error or timeout. -/
theorem fetch_partial_success (batch : Nat) (localQ : List FMsg)
    (arrivals : List FetchEvent) :
    ((natsSubscription_Fetch batch localQ arrivals).2.1 ≠ [] →
       (natsSubscription_Fetch batch localQ arrivals).1 = .ok)
  ∧ ((natsSubscription_Fetch batch localQ arrivals).1 ≠ .ok →
       (natsSubscription_Fetch batch localQ arrivals).2.1 = []) := by
  constructor
  · intro h
    simp only [natsSubscription_Fetch] at h ⊢
    repeat' split
    all_goals simp_all
  · intro h
    simp only [natsSubscription_Fetch] at h ⊢
    repeat' split
    all_goals simp_all

theorem fetch_partial_success_witness :
    natsSubscription_Fetch 2 [.user 1] [.msg .statusOther] = (.ok, [.user 1], [⟨1, false⟩])
    ∧ (natsSubscription_Fetch 2 [.user 1] [.msg .statusOther]).1 = .ok := by
  refine ⟨by decide, ?_⟩
  exact (fetch_partial_success 2 [.user 1] [.msg .statusOther]).1 (by decide)

/-! ### Ack API theorems -/

/-- C9: on a delivered (subscription-bound, reply-carrying) message, all
five ack calls return `NATS_OK` and publish nothing when the message is
already acked; on a not-yet-acked message with a successful transport call,
`Ack`, `AckSync`, `Nak` and `Term` mark it acked, while `InProgress`
succeeds but leaves it not acked. -/
theorem ackMsg_spec (msg : AckMsg) (pubOk : Bool)
    (hbound : msg.bound = true) (hreply : msg.reply ≠ "") :
    (msg.acked = true →
       natsMsg_Ack (some msg) pubOk = (.ok, some msg, [])
       ∧ natsMsg_AckSync (some msg) pubOk = (.ok, some msg, [])
       ∧ natsMsg_Nak (some msg) pubOk = (.ok, some msg, [])
       ∧ natsMsg_InProgress (some msg) pubOk = (.ok, some msg, [])
       ∧ natsMsg_Term (some msg) pubOk = (.ok, some msg, []))
  ∧ (msg.acked = false → pubOk = true →
       natsMsg_Ack (some msg) pubOk = (.ok, some { msg with acked := true }, [jsAckAck])
       ∧ natsMsg_AckSync (some msg) pubOk
           = (.ok, some { msg with acked := true }, [jsAckAck])
       ∧ natsMsg_Nak (some msg) pubOk = (.ok, some { msg with acked := true }, [jsAckNak])
       ∧ natsMsg_Term (some msg) pubOk
           = (.ok, some { msg with acked := true }, [jsAckTerm])
       ∧ natsMsg_InProgress (some msg) pubOk = (.ok, some msg, [jsAckInProgress])) := by
  constructor
  · intro hacked
    simp [natsMsg_Ack, natsMsg_AckSync, natsMsg_Nak, natsMsg_InProgress, natsMsg_Term,
          _ackMsg, hacked]
  · intro hacked hpub
    simp [natsMsg_Ack, natsMsg_AckSync, natsMsg_Nak, natsMsg_InProgress, natsMsg_Term,
          _ackMsg, hacked, hbound, hreply, hpub]

theorem ackMsg_spec_witness :
    natsMsg_Ack (some ⟨true, true, "r"⟩) true = (.ok, some ⟨true, true, "r"⟩, [])
    ∧ natsMsg_Nak (some ⟨false, true, "r"⟩) true = (.ok, some ⟨true, true, "r"⟩, [jsAckNak])
    ∧ natsMsg_InProgress (some ⟨false, true, "r"⟩) true
        = (.ok, some ⟨false, true, "r"⟩, [jsAckInProgress]) := by
  have h1 := (ackMsg_spec ⟨true, true, "r"⟩ true rfl (by decide)).1 rfl
  have h2 := (ackMsg_spec ⟨false, true, "r"⟩ true rfl (by decide)).2 rfl rfl
  exact ⟨h1.1, h2.2.2.1, h2.2.2.2.2⟩

/-! ### Pull subscribe validation theorem -/

/-- C10: `js_PullSubscribe` fails with `NATS_INVALID_ARG` without invoking
`_subscribe` (so before contacting the server or creating any
subscription) whenever the durable name is `NULL` or empty, or the
supplied options request ack policy `none` or `all`. -/
theorem pullSubscribe_validation (durable : Option String)
    (opts : Option jsAckPolicy) (subscribeResult : NatsStatus)
    (h : durable = none ∨ durable = some ""
         ∨ opts = some .js_AckNone ∨ opts = some .js_AckAll) :
    js_PullSubscribe durable opts subscribeResult = (.invalidArg, false) := by
  rcases h with h | h | h | h
  · subst h; rfl
  · subst h; rfl
  · subst h
    cases durable with
    | none => rfl
    | some dur =>
        by_cases hd : dur = "" <;> simp [js_PullSubscribe, hd]
  · subst h
    cases durable with
    | none => rfl
    | some dur =>
        by_cases hd : dur = "" <;> simp [js_PullSubscribe, hd]

theorem pullSubscribe_validation_witness :
    js_PullSubscribe (some "") (some .js_AckExplicit) .ok = (.invalidArg, false) :=
  pullSubscribe_validation (some "") (some .js_AckExplicit) .ok (Or.inr (Or.inl rfl))

end NatsJs
